import Mathlib

/-!
Shallow embedding of the wildfire-backend verification and streaming core:
`src/alert_engine.py` (filter_fire_events), `src/hotspot_verifier.py`
(HotspotVerifier.verify_hotspot, verify_all_hotspots) and
`src/services/yolo_service.py` (FireSmokeDetector.detect_video_stream),
together with the SSE wrapper `event_generator` from `src/app.py`.

Numeric CSV fields (confidence, frp, latitudes, detector confidences) are
modelled as rationals; dict-shaped results become structures whose fields
carry the dict keys.  Collaborators (the imagery fetch and the YOLO model)
are parameters, matching how the Python code calls into them.
-/

namespace Wildfire

/-- A FIRMS hotspot dict as consumed by `verify_all_hotspots`
(`hotspot['lat']`, `hotspot['lon']`, `hotspot['confidence']`, `hotspot['frp']`). -/
structure Hotspot where
  lat : ℚ
  lon : ℚ
  confidence : ℚ
  frp : ℚ
deriving DecidableEq, Repr

/-- The dict returned by `HotspotVerifier.verify_hotspot`. -/
structure VerificationResult where
  is_verified : Bool
  thermal_confidence : ℚ
  visual_confidence : ℚ
  verification_method : String
  status : String
deriving DecidableEq, Repr

/-- One detection dict built in `HotspotVerifier._detect_fire_in_imagery`
(`{'confidence': ..., 'bbox': ...}`). -/
structure BoxDetection where
  confidence : ℚ
  bbox : Option (List ℚ)
deriving DecidableEq, Repr

/-- The dict returned by `HotspotVerifier._detect_fire_in_imagery`. -/
structure VisualResult where
  has_fire : Bool
  confidence : ℚ
  detections : List BoxDetection
deriving DecidableEq, Repr

/-- `HotspotVerifier._detect_fire_in_imagery`: run the YOLO model on the
image, collect detection dicts, report `has_fire` and the average
confidence (0 when there are no detections). -/
def detect_fire_in_imagery {Img : Type} (yolo_model : Img → List BoxDetection)
    (image : Img) : VisualResult :=
  let detections := yolo_model image
  { has_fire := decide (detections.length > 0)
    confidence :=
      if detections.isEmpty then 0
      else (detections.map BoxDetection.confidence).sum / detections.length
    detections := detections }

/-- `HotspotVerifier.verify_hotspot`, parametrised over the imagery
collaborator (`_fetch_satellite_imagery`) and the YOLO model. -/
def verify_hotspot {Img : Type} (fetch : ℚ → ℚ → Option Img)
    (yolo_model : Img → List BoxDetection)
    (lat lon confidence frp : ℚ) : VerificationResult :=
  match fetch lat lon with
  | none =>
      { is_verified := decide (confidence ≥ 80) && decide (frp ≥ 20)
        thermal_confidence := confidence
        visual_confidence := 0
        verification_method := "thermal_only"
        status := "unverified_no_imagery" }
  | some imagery =>
      let visual_result := detect_fire_in_imagery yolo_model imagery
      if visual_result.has_fire then
        { is_verified := true
          thermal_confidence := confidence
          visual_confidence := visual_result.confidence * 100
          verification_method := "thermal_and_visual"
          status := "verified_wildfire" }
      else
        { is_verified := false
          thermal_confidence := confidence
          visual_confidence := 0
          verification_method := "visual_rejected"
          status := "false_alarm_rejected" }

/-- `HotspotVerifier._fetch_satellite_imagery`: the current implementation
unconditionally returns `None` (imagery integration is a TODO). -/
def fetch_satellite_imagery (Img : Type) (lat lon : ℚ) : Option Img :=
  none

/-- A hotspot after `hotspot['verification'] = result` in
`verify_all_hotspots`. -/
structure AnnotatedHotspot where
  hotspot : Hotspot
  verification : VerificationResult
deriving DecidableEq, Repr

/-- The per-hotspot step of `verify_all_hotspots`: verify and attach. -/
def annotate {Img : Type} (fetch : ℚ → ℚ → Option Img)
    (yolo_model : Img → List BoxDetection) (h : Hotspot) : AnnotatedHotspot :=
  { hotspot := h
    verification := verify_hotspot fetch yolo_model h.lat h.lon h.confidence h.frp }

/-- The categorisation loop of `verify_all_hotspots`: route each annotated
hotspot by `result['status']` into verified_fires / false_alarms /
unverified, appending in input order. -/
def categorize {Img : Type} (fetch : ℚ → ℚ → Option Img)
    (yolo_model : Img → List BoxDetection) :
    List Hotspot → List AnnotatedHotspot × List AnnotatedHotspot × List AnnotatedHotspot
  | [] => ([], [], [])
  | h :: rest =>
      let a := annotate fetch yolo_model h
      let (v, f, u) := categorize fetch yolo_model rest
      if a.verification.status = "verified_wildfire" then (a :: v, f, u)
      else if a.verification.status = "false_alarm_rejected" then (v, a :: f, u)
      else (v, f, a :: u)

/-- The `stats` dict of `verify_all_hotspots`. -/
structure Stats where
  total_hotspots : Nat
  verified_fires : Nat
  false_alarms_rejected : Nat
  unverified : Nat
  verification_rate : ℚ
deriving DecidableEq, Repr

/-- The dict returned by `verify_all_hotspots`. -/
structure VerifyAllResult where
  verified_fires : List AnnotatedHotspot
  false_alarms : List AnnotatedHotspot
  unverified : List AnnotatedHotspot
  stats : Stats
deriving DecidableEq, Repr

/-- `verify_all_hotspots(hotspots, yolo_model)`: run the per-hotspot
verifier over the batch, partition by status, and compute the stats dict,
with `verification_rate = len(verified)/len(hotspots)*100 if hotspots else 0`. -/
def verify_all_hotspots {Img : Type} (fetch : ℚ → ℚ → Option Img)
    (yolo_model : Img → List BoxDetection) (hotspots : List Hotspot) :
    VerifyAllResult :=
  let cat := categorize fetch yolo_model hotspots
  { verified_fires := cat.1
    false_alarms := cat.2.1
    unverified := cat.2.2
    stats :=
      { total_hotspots := hotspots.length
        verified_fires := cat.1.length
        false_alarms_rejected := cat.2.1.length
        unverified := cat.2.2.length
        verification_rate :=
          if hotspots.isEmpty then 0
          else (cat.1.length : ℚ) / (hotspots.length : ℚ) * 100 } }

/-- The routing predicate for the verified_fires list. -/
def isVerifiedStatus (a : AnnotatedHotspot) : Bool :=
  a.verification.status = "verified_wildfire"

/-- The routing predicate for the false_alarms list. -/
def isFalseAlarmStatus (a : AnnotatedHotspot) : Bool :=
  a.verification.status = "false_alarm_rejected"

/-- The routing predicate for the unverified list (the else branch). -/
def isUnverifiedStatus (a : AnnotatedHotspot) : Bool :=
  !isVerifiedStatus a && !isFalseAlarmStatus a

lemma categorize_fst {Img : Type} (fetch : ℚ → ℚ → Option Img)
    (yolo_model : Img → List BoxDetection) (hotspots : List Hotspot) :
    (categorize fetch yolo_model hotspots).1 =
      (hotspots.map (annotate fetch yolo_model)).filter isVerifiedStatus := by
  induction hotspots with
  | nil => rfl
  | cons h rest ih =>
    simp only [categorize, List.map_cons, List.filter_cons]
    by_cases h1 : (annotate fetch yolo_model h).verification.status = "verified_wildfire"
    · simp [isVerifiedStatus, h1, ih]
    · by_cases h2 : (annotate fetch yolo_model h).verification.status = "false_alarm_rejected"
      · simp [isVerifiedStatus, h1, h2, ih]
      · simp [isVerifiedStatus, h1, h2, ih]

lemma categorize_snd {Img : Type} (fetch : ℚ → ℚ → Option Img)
    (yolo_model : Img → List BoxDetection) (hotspots : List Hotspot) :
    (categorize fetch yolo_model hotspots).2.1 =
      (hotspots.map (annotate fetch yolo_model)).filter isFalseAlarmStatus := by
  induction hotspots with
  | nil => rfl
  | cons h rest ih =>
    simp only [categorize, List.map_cons, List.filter_cons]
    by_cases h1 : (annotate fetch yolo_model h).verification.status = "verified_wildfire"
    · have h2 : ¬ (annotate fetch yolo_model h).verification.status = "false_alarm_rejected" := by
        rw [h1]; intro hcontra; exact absurd hcontra (by decide)
      simp [isFalseAlarmStatus, h1, h2, ih]
    · by_cases h2 : (annotate fetch yolo_model h).verification.status = "false_alarm_rejected"
      · simp [isFalseAlarmStatus, h1, h2, ih]
      · simp [isFalseAlarmStatus, h1, h2, ih]

lemma categorize_thd {Img : Type} (fetch : ℚ → ℚ → Option Img)
    (yolo_model : Img → List BoxDetection) (hotspots : List Hotspot) :
    (categorize fetch yolo_model hotspots).2.2 =
      (hotspots.map (annotate fetch yolo_model)).filter isUnverifiedStatus := by
  induction hotspots with
  | nil => rfl
  | cons h rest ih =>
    simp only [categorize, List.map_cons, List.filter_cons]
    by_cases h1 : (annotate fetch yolo_model h).verification.status = "verified_wildfire"
    · simp [isUnverifiedStatus, isVerifiedStatus, isFalseAlarmStatus, h1, ih]
    · by_cases h2 : (annotate fetch yolo_model h).verification.status = "false_alarm_rejected"
      · simp [isUnverifiedStatus, isVerifiedStatus, isFalseAlarmStatus, h1, h2, ih]
      · simp [isUnverifiedStatus, isVerifiedStatus, isFalseAlarmStatus, h1, h2, ih]

lemma verify_all_verified_eq {Img : Type} (fetch : ℚ → ℚ → Option Img)
    (yolo_model : Img → List BoxDetection) (hotspots : List Hotspot) :
    (verify_all_hotspots fetch yolo_model hotspots).verified_fires =
      (hotspots.map (annotate fetch yolo_model)).filter isVerifiedStatus :=
  categorize_fst fetch yolo_model hotspots

lemma verify_all_false_eq {Img : Type} (fetch : ℚ → ℚ → Option Img)
    (yolo_model : Img → List BoxDetection) (hotspots : List Hotspot) :
    (verify_all_hotspots fetch yolo_model hotspots).false_alarms =
      (hotspots.map (annotate fetch yolo_model)).filter isFalseAlarmStatus :=
  categorize_snd fetch yolo_model hotspots

lemma verify_all_unverified_eq {Img : Type} (fetch : ℚ → ℚ → Option Img)
    (yolo_model : Img → List BoxDetection) (hotspots : List Hotspot) :
    (verify_all_hotspots fetch yolo_model hotspots).unverified =
      (hotspots.map (annotate fetch yolo_model)).filter isUnverifiedStatus :=
  categorize_thd fetch yolo_model hotspots

/-- Exactly one of the three routing predicates holds for any annotated
hotspot: the loop's if/elif/else makes them exclusive and exhaustive. -/
lemma status_trichotomy (a : AnnotatedHotspot) :
    (isVerifiedStatus a = true ∧ isFalseAlarmStatus a = false ∧ isUnverifiedStatus a = false) ∨
    (isVerifiedStatus a = false ∧ isFalseAlarmStatus a = true ∧ isUnverifiedStatus a = false) ∨
    (isVerifiedStatus a = false ∧ isFalseAlarmStatus a = false ∧ isUnverifiedStatus a = true) := by
  by_cases h1 : a.verification.status = "verified_wildfire"
  · have h2 : ¬ a.verification.status = "false_alarm_rejected" := by
      rw [h1]; intro hcontra; exact absurd hcontra (by decide)
    left
    simp [isVerifiedStatus, isFalseAlarmStatus, isUnverifiedStatus, h1, h2]
  · by_cases h2 : a.verification.status = "false_alarm_rejected"
    · right; left
      simp [isVerifiedStatus, isFalseAlarmStatus, isUnverifiedStatus, h1, h2]
    · right; right
      simp [isVerifiedStatus, isFalseAlarmStatus, isUnverifiedStatus, h1, h2]

lemma count_filter_split {α : Type} [DecidableEq α] (l : List α) (a : α)
    (p q r : α → Bool)
    (ht : (p a = true ∧ q a = false ∧ r a = false) ∨
          (p a = false ∧ q a = true ∧ r a = false) ∨
          (p a = false ∧ q a = false ∧ r a = true)) :
    l.count a = (l.filter p).count a + (l.filter q).count a + (l.filter r).count a := by
  have hz : ∀ s : α → Bool, s a = false → (l.filter s).count a = 0 := by
    intro s hs
    refine List.count_eq_zero_of_not_mem ?_
    intro hmem
    have := (List.mem_filter.mp hmem).2
    rw [hs] at this
    exact absurd this (by decide)
  rcases ht with ⟨hp, hq, hr⟩ | ⟨hp, hq, hr⟩ | ⟨hp, hq, hr⟩
  · rw [List.count_filter hp, hz q hq, hz r hr]; ring
  · rw [List.count_filter hq, hz p hp, hz r hr]; ring
  · rw [List.count_filter hr, hz p hp, hz q hq]; ring

/-- C1: the three output lists of `verify_all_hotspots` exactly partition
the (annotated) input batch: each is an order-preserving sublist of the
annotated input, every annotated input hotspot is counted exactly once
across the three lists, and the lists are pairwise disjoint. -/
theorem verify_all_hotspots_partition {Img : Type} (fetch : ℚ → ℚ → Option Img)
    (yolo_model : Img → List BoxDetection) (hotspots : List Hotspot) :
    (verify_all_hotspots fetch yolo_model hotspots).verified_fires.Sublist
        (hotspots.map (annotate fetch yolo_model)) ∧
    (verify_all_hotspots fetch yolo_model hotspots).false_alarms.Sublist
        (hotspots.map (annotate fetch yolo_model)) ∧
    (verify_all_hotspots fetch yolo_model hotspots).unverified.Sublist
        (hotspots.map (annotate fetch yolo_model)) ∧
    (∀ a : AnnotatedHotspot,
      (hotspots.map (annotate fetch yolo_model)).count a =
        (verify_all_hotspots fetch yolo_model hotspots).verified_fires.count a +
        (verify_all_hotspots fetch yolo_model hotspots).false_alarms.count a +
        (verify_all_hotspots fetch yolo_model hotspots).unverified.count a) ∧
    (∀ a : AnnotatedHotspot,
      a ∈ (verify_all_hotspots fetch yolo_model hotspots).verified_fires →
        a ∉ (verify_all_hotspots fetch yolo_model hotspots).false_alarms ∧
        a ∉ (verify_all_hotspots fetch yolo_model hotspots).unverified) ∧
    (∀ a : AnnotatedHotspot,
      a ∈ (verify_all_hotspots fetch yolo_model hotspots).false_alarms →
        a ∉ (verify_all_hotspots fetch yolo_model hotspots).unverified) := by
  rw [verify_all_verified_eq, verify_all_false_eq, verify_all_unverified_eq]
  refine ⟨List.filter_sublist _, List.filter_sublist _, List.filter_sublist _, ?_, ?_, ?_⟩
  · intro a
    exact count_filter_split _ a _ _ _ (status_trichotomy a)
  · intro a hv
    have hp := (List.mem_filter.mp hv).2
    constructor
    · intro hf
      have hq := (List.mem_filter.mp hf).2
      rcases status_trichotomy a with ⟨_, h2, _⟩ | ⟨h1, _, _⟩ | ⟨h1, _, _⟩
      · rw [h2] at hq; exact absurd hq (by decide)
      · rw [h1] at hp; exact absurd hp (by decide)
      · rw [h1] at hp; exact absurd hp (by decide)
    · intro hu
      have hq := (List.mem_filter.mp hu).2
      rcases status_trichotomy a with ⟨_, _, h3⟩ | ⟨h1, _, _⟩ | ⟨h1, _, _⟩
      · rw [h3] at hq; exact absurd hq (by decide)
      · rw [h1] at hp; exact absurd hp (by decide)
      · rw [h1] at hp; exact absurd hp (by decide)
  · intro a hf hu
    have hp := (List.mem_filter.mp hf).2
    have hq := (List.mem_filter.mp hu).2
    rcases status_trichotomy a with ⟨_, h2, _⟩ | ⟨_, _, h3⟩ | ⟨_, h2, _⟩
    · rw [h2] at hp; exact absurd hp (by decide)
    · rw [h3] at hq; exact absurd hq (by decide)
    · rw [h2] at hp; exact absurd hp (by decide)

/-- With no imagery, the attached status is always `unverified_no_imagery`. -/
lemma annotate_status_of_fetch_none {Img : Type} (fetch : ℚ → ℚ → Option Img)
    (yolo_model : Img → List BoxDetection) (h : Hotspot)
    (hfetch : fetch h.lat h.lon = none) :
    (annotate fetch yolo_model h).verification.status = "unverified_no_imagery" := by
  simp [annotate, verify_hotspot, hfetch]

/-- C2: when imagery is unavailable for a hotspot, `verify_hotspot` returns
`is_verified = (confidence ≥ 80 and frp ≥ 20)`, `visual_confidence = 0`,
`method = thermal_only` and `status = unverified_no_imagery` regardless of
`is_verified`; hence `verify_all_hotspots` routes the hotspot to the
unverified list and never to verified_fires, even when `is_verified` is
true. -/
theorem verify_hotspot_no_imagery {Img : Type} (fetch : ℚ → ℚ → Option Img)
    (yolo_model : Img → List BoxDetection) (hotspots : List Hotspot)
    (h : Hotspot) (hfetch : fetch h.lat h.lon = none) (hmem : h ∈ hotspots) :
    verify_hotspot fetch yolo_model h.lat h.lon h.confidence h.frp =
      { is_verified := decide (h.confidence ≥ 80) && decide (h.frp ≥ 20)
        thermal_confidence := h.confidence
        visual_confidence := 0
        verification_method := "thermal_only"
        status := "unverified_no_imagery" } ∧
    ((verify_hotspot fetch yolo_model h.lat h.lon h.confidence h.frp).is_verified = true ↔
      (h.confidence ≥ 80 ∧ h.frp ≥ 20)) ∧
    annotate fetch yolo_model h ∈
      (verify_all_hotspots fetch yolo_model hotspots).unverified ∧
    annotate fetch yolo_model h ∉
      (verify_all_hotspots fetch yolo_model hotspots).verified_fires := by
  have hstatus := annotate_status_of_fetch_none fetch yolo_model h hfetch
  have hrec : verify_hotspot fetch yolo_model h.lat h.lon h.confidence h.frp =
      { is_verified := decide (h.confidence ≥ 80) && decide (h.frp ≥ 20)
        thermal_confidence := h.confidence
        visual_confidence := 0
        verification_method := "thermal_only"
        status := "unverified_no_imagery" } := by
    simp [verify_hotspot, hfetch]
  refine ⟨hrec, ?_, ?_, ?_⟩
  · rw [hrec]
    simp
  · rw [verify_all_unverified_eq]
    refine List.mem_filter.mpr ⟨List.mem_map_of_mem _ hmem, ?_⟩
    simp [isUnverifiedStatus, isVerifiedStatus, isFalseAlarmStatus, hstatus]
  · rw [verify_all_verified_eq]
    intro hcontra
    have := (List.mem_filter.mp hcontra).2
    rw [isVerifiedStatus, hstatus] at this
    exact absurd (of_decide_eq_true this) (by decide)

/-- Witness for C2 at Scenario A: confidence 90, FRP 30, imagery
unavailable: `is_verified` is true yet the hotspot lands in `unverified`. -/
theorem verify_hotspot_no_imagery_witness :
    verify_hotspot (fun _ _ => (none : Option Unit)) (fun _ => [])
        (⟨0, 0, 90, 30⟩ : Hotspot).lat (⟨0, 0, 90, 30⟩ : Hotspot).lon
        (⟨0, 0, 90, 30⟩ : Hotspot).confidence (⟨0, 0, 90, 30⟩ : Hotspot).frp =
      { is_verified := decide ((⟨0, 0, 90, 30⟩ : Hotspot).confidence ≥ 80) &&
          decide ((⟨0, 0, 90, 30⟩ : Hotspot).frp ≥ 20)
        thermal_confidence := (⟨0, 0, 90, 30⟩ : Hotspot).confidence
        visual_confidence := 0
        verification_method := "thermal_only"
        status := "unverified_no_imagery" } ∧
    ((verify_hotspot (fun _ _ => (none : Option Unit)) (fun _ => [])
        (⟨0, 0, 90, 30⟩ : Hotspot).lat (⟨0, 0, 90, 30⟩ : Hotspot).lon
        (⟨0, 0, 90, 30⟩ : Hotspot).confidence
        (⟨0, 0, 90, 30⟩ : Hotspot).frp).is_verified = true ↔
      ((⟨0, 0, 90, 30⟩ : Hotspot).confidence ≥ 80 ∧ (⟨0, 0, 90, 30⟩ : Hotspot).frp ≥ 20)) ∧
    annotate (fun _ _ => (none : Option Unit)) (fun _ => []) ⟨0, 0, 90, 30⟩ ∈
      (verify_all_hotspots (fun _ _ => (none : Option Unit)) (fun _ => [])
        [⟨0, 0, 90, 30⟩]).unverified ∧
    annotate (fun _ _ => (none : Option Unit)) (fun _ => []) ⟨0, 0, 90, 30⟩ ∉
      (verify_all_hotspots (fun _ _ => (none : Option Unit)) (fun _ => [])
        [⟨0, 0, 90, 30⟩]).verified_fires :=
  verify_hotspot_no_imagery (fun _ _ => (none : Option Unit)) (fun _ => [])
    [⟨0, 0, 90, 30⟩] ⟨0, 0, 90, 30⟩ rfl (by simp)

/-- C3: when imagery is available, `verify_hotspot` verifies iff the
detector finds at least one detection: with ≥ 1 detection it returns
`is_verified = true`, `visual_confidence = mean of detection confidences
× 100`, `method = thermal_and_visual`, `status = verified_wildfire`; with
zero detections `is_verified = false`, `visual_confidence = 0`,
`method = visual_rejected`, `status = false_alarm_rejected`. -/
theorem verify_hotspot_with_imagery {Img : Type} (fetch : ℚ → ℚ → Option Img)
    (yolo_model : Img → List BoxDetection) (lat lon confidence frp : ℚ)
    (img : Img) (hfetch : fetch lat lon = some img) :
    (yolo_model img ≠ [] →
      verify_hotspot fetch yolo_model lat lon confidence frp =
        { is_verified := true
          thermal_confidence := confidence
          visual_confidence :=
            ((yolo_model img).map BoxDetection.confidence).sum /
              ((yolo_model img).length : ℚ) * 100
          verification_method := "thermal_and_visual"
          status := "verified_wildfire" }) ∧
    (yolo_model img = [] →
      verify_hotspot fetch yolo_model lat lon confidence frp =
        { is_verified := false
          thermal_confidence := confidence
          visual_confidence := 0
          verification_method := "visual_rejected"
          status := "false_alarm_rejected" }) := by
  constructor
  · intro hne
    have hlen : 0 < (yolo_model img).length := List.length_pos.mpr hne
    simp [verify_hotspot, hfetch, detect_fire_in_imagery, hlen, List.isEmpty_eq_false.mpr hne]
  · intro hnil
    simp [verify_hotspot, hfetch, detect_fire_in_imagery, hnil]

/-- Witness for C3 at Scenario B: one detection with confidence 0.6 gives
`visual_confidence = 60`, status `verified_wildfire`. -/
theorem verify_hotspot_with_imagery_witness :
    verify_hotspot (fun _ _ => some ()) (fun _ => [⟨3/5, none⟩]) 1 2 50 10 =
      { is_verified := true
        thermal_confidence := 50
        visual_confidence := 60
        verification_method := "thermal_and_visual"
        status := "verified_wildfire" } := by
  rw [(verify_hotspot_with_imagery (fun _ _ => some ()) (fun _ => [⟨3/5, none⟩])
    1 2 50 10 () rfl).1 (by decide)]
  norm_num [VerificationResult.mk.injEq]

/-- C4: the reported verification rate is `verified / total × 100` on a
non-empty batch, and 0 on the empty batch (no division fault). -/
theorem verify_all_hotspots_rate {Img : Type} (fetch : ℚ → ℚ → Option Img)
    (yolo_model : Img → List BoxDetection) (hotspots : List Hotspot) :
    (hotspots ≠ [] →
      (verify_all_hotspots fetch yolo_model hotspots).stats.verification_rate =
        ((verify_all_hotspots fetch yolo_model hotspots).stats.verified_fires : ℚ) /
          ((verify_all_hotspots fetch yolo_model hotspots).stats.total_hotspots : ℚ) * 100) ∧
    (hotspots = [] →
      (verify_all_hotspots fetch yolo_model hotspots).stats.verification_rate = 0) := by
  constructor
  · intro hne
    simp [verify_all_hotspots, List.isEmpty_eq_false.mpr hne]
  · intro hnil
    subst hnil
    simp [verify_all_hotspots]

/-- C10: the current `_fetch_satellite_imagery` returns `None` for every
location, so every hotspot takes the thermal-only branch: both
verified_fires and false_alarms are always empty, every input lands in
unverified with status `unverified_no_imagery`, and the verification rate
is 0 for every batch. -/
theorem fetch_none_all_unverified (Img : Type)
    (yolo_model : Img → List BoxDetection) (hotspots : List Hotspot) :
    (∀ lat lon : ℚ, fetch_satellite_imagery Img lat lon = none) ∧
    (verify_all_hotspots (fetch_satellite_imagery Img) yolo_model hotspots).verified_fires
      = [] ∧
    (verify_all_hotspots (fetch_satellite_imagery Img) yolo_model hotspots).false_alarms
      = [] ∧
    (verify_all_hotspots (fetch_satellite_imagery Img) yolo_model hotspots).unverified =
      hotspots.map (annotate (fetch_satellite_imagery Img) yolo_model) ∧
    (∀ a ∈ (verify_all_hotspots (fetch_satellite_imagery Img) yolo_model hotspots).unverified,
      a.verification.status = "unverified_no_imagery") ∧
    (verify_all_hotspots (fetch_satellite_imagery Img) yolo_model hotspots).stats.verification_rate
      = 0 := by
  have hstat : ∀ h : Hotspot,
      (annotate (fetch_satellite_imagery Img) yolo_model h).verification.status =
        "unverified_no_imagery" := fun h =>
    annotate_status_of_fetch_none _ yolo_model h rfl
  have hver :
      (verify_all_hotspots (fetch_satellite_imagery Img) yolo_model hotspots).verified_fires
        = [] := by
    rw [verify_all_verified_eq]
    refine List.filter_eq_nil_iff.mpr ?_
    intro a ha
    obtain ⟨h, _, rfl⟩ := List.mem_map.mp ha
    simp [isVerifiedStatus, hstat h]
  refine ⟨fun _ _ => rfl, hver, ?_, ?_, ?_, ?_⟩
  · rw [verify_all_false_eq]
    refine List.filter_eq_nil_iff.mpr ?_
    intro a ha
    obtain ⟨h, _, rfl⟩ := List.mem_map.mp ha
    simp [isFalseAlarmStatus, hstat h]
  · rw [verify_all_unverified_eq]
    refine List.filter_eq_self.mpr ?_
    intro a ha
    obtain ⟨h, _, rfl⟩ := List.mem_map.mp ha
    simp [isUnverifiedStatus, isVerifiedStatus, isFalseAlarmStatus, hstat h]
  · intro a ha
    rw [verify_all_unverified_eq] at ha
    obtain ⟨h, _, rfl⟩ := List.mem_map.mp (List.mem_filter.mp ha).1
    exact hstat h
  · have hcat : (categorize (fetch_satellite_imagery Img) yolo_model hotspots).1 = [] := hver
    show (if hotspots.isEmpty then 0
          else ((categorize (fetch_satellite_imagery Img) yolo_model
              hotspots).1.length : ℚ) / (hotspots.length : ℚ) * 100) = 0
    rw [hcat]
    by_cases he : hotspots.isEmpty <;> simp [he]

/-! ## Alert filter (`src/alert_engine.py`) -/

/-- One row of the FIRMS dataframe consumed by `filter_fire_events`. -/
structure Row where
  latitude : ℚ
  longitude : ℚ
  confidence : ℚ
  frp : ℚ
  acq_date : String
  acq_time : String
deriving DecidableEq, Repr

/-- One alert dict produced by `filter_fire_events`. -/
structure Alert where
  lat : ℚ
  lon : ℚ
  confidence : ℚ
  frp : ℚ
  date : String
  time : String
deriving DecidableEq, Repr

/-- The boolean row mask `(df["confidence"] >= MIN_CONFIDENCE) &
(df["frp"] >= MIN_FRP)`.  The thresholds come from the repository's
`config.py` (not part of the staged sources), so they are parameters here;
the spec's contract likewise takes `min_confidence` and `min_frp` as
arguments. -/
def rowKeep (min_confidence min_frp : ℚ) (r : Row) : Bool :=
  decide (r.confidence ≥ min_confidence) && decide (r.frp ≥ min_frp)

/-- The per-row projection built in the loop of `filter_fire_events`. -/
def alertOfRow (r : Row) : Alert :=
  { lat := r.latitude
    lon := r.longitude
    confidence := r.confidence
    frp := r.frp
    date := r.acq_date
    time := r.acq_time }

/-- `filter_fire_events(df)`: keep the rows passing both thresholds and
project each surviving row to an alert dict, in input order. -/
def filter_fire_events (min_confidence min_frp : ℚ) (df : List Row) : List Alert :=
  (df.filter (rowKeep min_confidence min_frp)).map alertOfRow

/-- The value-preserving repackaging of an alert as a row (the projection
`alertOfRow` keeps every field, only renaming keys). -/
def rowOfAlert (a : Alert) : Row :=
  { latitude := a.lat
    longitude := a.lon
    confidence := a.confidence
    frp := a.frp
    acq_date := a.date
    acq_time := a.time }

lemma rowOfAlert_alertOfRow (r : Row) : rowOfAlert (alertOfRow r) = r := rfl

/-- C5: `filter_fire_events` keeps a row iff it meets both thresholds,
preserves input order (the output, read back as rows, is a sublist of the
input), every output record satisfies both thresholds, and the filter is
idempotent: filtering its own output returns it unchanged. -/
theorem filter_fire_events_spec (min_confidence min_frp : ℚ) (df : List Row) :
    (∀ r ∈ df, (alertOfRow r ∈ filter_fire_events min_confidence min_frp df ↔
      (r.confidence ≥ min_confidence ∧ r.frp ≥ min_frp))) ∧
    ((filter_fire_events min_confidence min_frp df).map rowOfAlert).Sublist df ∧
    (∀ a ∈ filter_fire_events min_confidence min_frp df,
      a.confidence ≥ min_confidence ∧ a.frp ≥ min_frp) ∧
    filter_fire_events min_confidence min_frp
        ((filter_fire_events min_confidence min_frp df).map rowOfAlert) =
      filter_fire_events min_confidence min_frp df := by
  have hback : ∀ l : List Row, (l.map alertOfRow).map rowOfAlert = l := by
    intro l
    rw [List.map_map]
    exact List.map_id'' rowOfAlert_alertOfRow l
  refine ⟨?_, ?_, ?_, ?_⟩
  · intro r hr
    constructor
    · intro hmem
      obtain ⟨r2, hr2, heq⟩ := List.mem_map.mp hmem
      have hfields : r2 = r := by
        cases r2; cases r
        simpa [alertOfRow, Alert.mk.injEq, Row.mk.injEq] using heq
      subst hfields
      have := (List.mem_filter.mp hr2).2
      rw [rowKeep, Bool.and_eq_true, decide_eq_true_eq, decide_eq_true_eq] at this
      exact this
    · intro hthr
      refine List.mem_map_of_mem _ (List.mem_filter.mpr ⟨hr, ?_⟩)
      rw [rowKeep, Bool.and_eq_true, decide_eq_true_eq, decide_eq_true_eq]
      exact hthr
  · rw [filter_fire_events, hback]
    exact List.filter_sublist df
  · intro a hmem
    obtain ⟨r2, hr2, heq⟩ := List.mem_map.mp hmem
    have := (List.mem_filter.mp hr2).2
    rw [rowKeep, Bool.and_eq_true, decide_eq_true_eq, decide_eq_true_eq] at this
    subst heq
    exact this
  · show List.map alertOfRow
        (List.filter (rowKeep min_confidence min_frp)
          (List.map rowOfAlert
            (List.map alertOfRow (List.filter (rowKeep min_confidence min_frp) df)))) =
      filter_fire_events min_confidence min_frp df
    rw [hback, List.filter_eq_self.mpr fun a ha => (List.mem_filter.mp ha).2]
    rfl

/-! ## Detection stream (`src/services/yolo_service.py`, wrapper in
`src/app.py`)

`FireSmokeDetector.detect_video_stream` is a generator over a media file.
The filesystem and cv2 are abstracted: the embedding takes the lowercased
extension `os.path.splitext(video_path)[1].lower()` as `file_ext`, the
detections `self.detect(path)` would return for the whole file, whether
`cv2.VideoCapture` opens (`cap.isOpened()`), the probed
`CAP_PROP_FRAME_COUNT`, the successive outcomes of `cap.read()` (a decoded
frame, or a failed read), and the per-frame detector. -/

/-- One detection dict built in `FireSmokeDetector`
(`{'class': ..., 'confidence': ...}`). -/
structure Detection where
  cls : Int
  confidence : ℚ
deriving DecidableEq, Repr

/-- One dict yielded by `detect_video_stream`.  The single-image branch
yields no `progress` key, the video branch always does: `progress` is an
`Option`. -/
structure FrameResult where
  frame : Nat
  total_frames : Int
  detections : List Detection
  has_fire : Bool
  progress : Option ℚ
deriving DecidableEq, Repr

/-- The extension whitelist deciding the video branch. -/
def video_extensions : List String :=
  [".mp4", ".avi", ".mov", ".mkv", ".flv", ".wmv"]

/-- The `while cap.isOpened(): ret, frame = cap.read(); if not ret: break`
loop: one FrameResult per successful read, stopping at the first failed
read (`none`); `frame_number` starts at the given counter and increments
before each yield. -/
def processFrames {Frame : Type} (model : Frame → List Detection)
    (total_frames : Int) : Nat → List (Option Frame) → List FrameResult
  | _, [] => []
  | _, none :: _ => []
  | n, some f :: rest =>
      let detections := model f
      { frame := n + 1
        total_frames := total_frames
        detections := detections
        has_fire := decide (detections.length > 0)
        progress :=
          some (if total_frames > 0 then ((n + 1 : ℚ)) / (total_frames : ℚ) * 100
                else 100) } ::
      processFrames model total_frames (n + 1) rest

/-- `FireSmokeDetector.detect_video_stream`, as the list of results the
generator yields when run to exhaustion.  `file_ext` is the lowercased
extension; a non-video extension takes the single-image branch, which
yields one result with `frame = 0`, `total_frames = 1` and no progress
key. -/
def detect_video_stream {Frame : Type} (file_ext : String)
    (image_detections : List Detection) (opened : Bool) (frame_count : Int)
    (reads : List (Option Frame)) (model : Frame → List Detection) :
    List FrameResult :=
  if file_ext ∈ video_extensions then
    if opened then processFrames model frame_count 0 reads else []
  else
    [{ frame := 0
       total_frames := 1
       detections := image_detections
       has_fire := decide (image_detections.length > 0)
       progress := none }]

/-- Counterexample to C6 as stated: for a single image the yielded dict has
no `progress` key at all (the image branch of `detect_video_stream` builds
`{"frame", "total_frames", "detections", "has_fire"}` only), so its
progress is not 100. -/
theorem detect_image_no_progress_cex :
    detect_video_stream ".jpg" ([] : List Detection) true 0
        ([] : List (Option Unit)) (fun _ => []) =
      [{ frame := 0
         total_frames := 1
         detections := []
         has_fire := false
         progress := none }] ∧
    (detect_video_stream ".jpg" ([] : List Detection) true 0
        ([] : List (Option Unit)) (fun _ => [])).head?.map FrameResult.progress ≠
      some (some 100) := by
  constructor
  · rw [detect_video_stream, if_neg (by decide)]
    rfl
  · rw [detect_video_stream, if_neg (by decide)]
    intro hcontra
    simp at hcontra

/-- C6 (amended): for a media path whose extension is not a video
extension, the stream emits exactly one FrameResult, with `frame = 0`,
`total_frames = 1`, `has_fire = (detections non-empty)` and no progress
value, then terminates. -/
theorem detect_video_stream_image {Frame : Type} (file_ext : String)
    (image_detections : List Detection) (opened : Bool) (frame_count : Int)
    (reads : List (Option Frame)) (model : Frame → List Detection)
    (hext : file_ext ∉ video_extensions) :
    detect_video_stream file_ext image_detections opened frame_count reads model =
      [{ frame := 0
         total_frames := 1
         detections := image_detections
         has_fire := decide (image_detections.length > 0)
         progress := none }] := by
  rw [detect_video_stream, if_neg hext]

/-- Witness for the amended C6 at a concrete image input. -/
theorem detect_video_stream_image_witness :
    detect_video_stream ".png" [⟨0, 9/10⟩] true 0 ([] : List (Option Unit))
        (fun _ => []) =
      [{ frame := 0
         total_frames := 1
         detections := [⟨0, 9/10⟩]
         has_fire := decide (([⟨0, 9/10⟩] : List Detection).length > 0)
         progress := none }] :=
  detect_video_stream_image ".png" [⟨0, 9/10⟩] true 0 [] (fun _ => []) (by decide)

/-- Running the frame loop over a run of successful reads followed by a
failed read: one result per decoded frame, indexed consecutively from the
starting counter; everything after the failed read is never examined. -/
lemma processFrames_maps {Frame : Type} (model : Frame → List Detection)
    (total_frames : Int) (tail : List (Option Frame)) :
    ∀ (frames : List Frame) (n : Nat),
      processFrames model total_frames n (frames.map some ++ none :: tail) =
        (List.enumFrom n frames).map (fun p =>
          { frame := p.1 + 1
            total_frames := total_frames
            detections := model p.2
            has_fire := decide ((model p.2).length > 0)
            progress :=
              some (if total_frames > 0 then ((p.1 + 1 : ℚ)) / (total_frames : ℚ) * 100
                    else 100) })
  | [], n => rfl
  | f :: rest, n => by
      simp only [List.map_cons, List.cons_append, processFrames, List.enumFrom_cons,
        List.append_eq]
      rw [processFrames_maps model total_frames tail rest (n + 1)]

/-- C7: for a video whose probed frame count equals its number of decodable
frames, the stream yields exactly one FrameResult per frame, in order, with
frame indices 1..N, the fixed total frame count in every element,
`has_fire` = (that frame's detections non-empty), and
`progress = frame_index / total_frames × 100`; the emitted progress values
are monotonically non-decreasing and the final one is exactly 100. -/
theorem detect_video_stream_video {Frame : Type} (file_ext : String)
    (image_detections : List Detection) (frames : List Frame)
    (model : Frame → List Detection) (hext : file_ext ∈ video_extensions) :
    detect_video_stream file_ext image_detections true (frames.length : Int)
        (frames.map some ++ [none]) model =
      frames.enum.map (fun p =>
        { frame := p.1 + 1
          total_frames := (frames.length : Int)
          detections := model p.2
          has_fire := decide ((model p.2).length > 0)
          progress := some (((p.1 + 1 : ℚ)) / (frames.length : ℚ) * 100) }) ∧
    (detect_video_stream file_ext image_detections true (frames.length : Int)
        (frames.map some ++ [none]) model).length = frames.length ∧
    (∀ r ∈ detect_video_stream file_ext image_detections true (frames.length : Int)
        (frames.map some ++ [none]) model,
      r.total_frames = (frames.length : Int)) ∧
    ((detect_video_stream file_ext image_detections true (frames.length : Int)
        (frames.map some ++ [none]) model).filterMap
        FrameResult.progress).Pairwise (· ≤ ·) ∧
    (frames ≠ [] →
      ((detect_video_stream file_ext image_detections true (frames.length : Int)
          (frames.map some ++ [none]) model).filterMap
          FrameResult.progress).getLast? = some 100) := by
  have hmain : detect_video_stream file_ext image_detections true (frames.length : Int)
      (frames.map some ++ [none]) model =
      frames.enum.map (fun p =>
        { frame := p.1 + 1
          total_frames := (frames.length : Int)
          detections := model p.2
          has_fire := decide ((model p.2).length > 0)
          progress := some (((p.1 + 1 : ℚ)) / (frames.length : ℚ) * 100) }) := by
    rw [detect_video_stream, if_pos hext, if_pos rfl,
      processFrames_maps model (frames.length : Int) [] frames 0]
    refine List.map_congr_left ?_
    intro p hp
    have hne : frames ≠ [] := by
      rintro rfl
      simp [List.enumFrom] at hp
    have hpos : (0 : Int) < (frames.length : Int) := by
      exact_mod_cast List.length_pos.mpr hne
    simp only [hpos, if_pos]
    push_cast
    rfl
  have hprog : (detect_video_stream file_ext image_detections true (frames.length : Int)
      (frames.map some ++ [none]) model).filterMap FrameResult.progress =
      (List.range frames.length).map
        (fun i : ℕ => ((i : ℚ) + 1) / (frames.length : ℚ) * 100) := by
    rw [hmain, List.filterMap_map]
    have hcomp : (FrameResult.progress ∘ fun p : ℕ × Frame =>
        ({ frame := p.1 + 1
           total_frames := (frames.length : Int)
           detections := model p.2
           has_fire := decide ((model p.2).length > 0)
           progress := some (((p.1 + 1 : ℚ)) / (frames.length : ℚ) * 100) } : FrameResult)) =
        some ∘ ((fun i : ℕ => ((i : ℚ) + 1) / (frames.length : ℚ) * 100) ∘ Prod.fst) := rfl
    rw [hcomp, List.filterMap_eq_map, ← List.map_map, List.enum_map_fst]
  refine ⟨hmain, ?_, ?_, ?_, ?_⟩
  · rw [hmain]
    simp
  · intro r hr
    rw [hmain] at hr
    obtain ⟨p, _, rfl⟩ := List.mem_map.mp hr
    rfl
  · rw [hprog]
    by_cases hne : frames = []
    · subst hne
      simp
    · have hpos : (0 : ℚ) < (frames.length : ℚ) := by
        exact_mod_cast List.length_pos.mpr hne
      refine (List.pairwise_lt_range frames.length).map _ ?_
      intro i j hij
      gcongr
  · intro hne
    rw [hprog]
    obtain ⟨m, hm⟩ := Nat.exists_eq_succ_of_ne_zero
      (fun h0 => hne (List.length_eq_zero.mp h0))
    rw [hm, List.range_succ, List.map_append, List.map_cons, List.map_nil,
      List.getLast?_concat]
    have hq : ((m : ℚ) + 1) / (((m.succ : ℕ) : ℚ)) * 100 = 100 := by
      push_cast
      rw [div_self (by positivity)]
      norm_num
    rw [hq]

/-- Witness for C7 at a concrete two-frame video: indices 1..2, fire only
on the second frame, progress 50 then 100. -/
theorem detect_video_stream_video_witness :
    detect_video_stream ".mp4" ([] : List Detection) true
        ((([false, true] : List Bool)).length : Int)
        (([false, true] : List Bool).map some ++ [none])
        (fun b => if b then [⟨0, 1/2⟩] else []) =
      [{ frame := 1
         total_frames := 2
         detections := []
         has_fire := false
         progress := some 50 },
       { frame := 2
         total_frames := 2
         detections := [⟨0, 1/2⟩]
         has_fire := true
         progress := some 100 }] := by
  rw [(detect_video_stream_video ".mp4" [] [false, true]
    (fun b => if b then [⟨0, 1/2⟩] else []) (by decide)).1]
  norm_num [List.enum, List.enumFrom]

/-! ### SSE transport (`src/app.py`) and the generator's effect trace -/

/-- One Server-Sent Event produced by `event_generator` in
`detect_fire_smoke_stream`: a per-frame data event, the `{'done': True}`
sentinel, or the `{'error': ...}` event of the except branch. -/
inductive SSEEvent where
  | data (r : FrameResult)
  | done
  | error (msg : String)
deriving DecidableEq, Repr

/-- `event_generator` from `app.py` over an inner generator that raises no
exception (the decode loop of `detect_video_stream` raises none: a failed
read just breaks the loop): one data event per yielded result, then the
done sentinel.  The except branch that emits an error event fires only when
the inner generator raises. -/
def event_generator (results : List FrameResult) : List SSEEvent :=
  results.map SSEEvent.data ++ [SSEEvent.done]

/-- Counterexample to C8 as stated: a mid-stream decode failure (a failed
read with a decodable frame still behind it) produces exactly the same
event sequence as a video that simply ends after the first frame — a data
event then the done sentinel, no error signal. -/
theorem stream_decode_failure_cex :
    event_generator (detect_video_stream ".mp4" ([] : List Detection) true 3
        [some (), none, some ()] (fun _ : Unit => [])) =
      [SSEEvent.data
        { frame := 1
          total_frames := 3
          detections := []
          has_fire := false
          progress := some (100/3) },
       SSEEvent.done] ∧
    event_generator (detect_video_stream ".mp4" ([] : List Detection) true 3
        [some (), none, some ()] (fun _ : Unit => [])) =
      event_generator (detect_video_stream ".mp4" ([] : List Detection) true 3
        [some (), none] (fun _ : Unit => [])) := by
  constructor
  · rw [detect_video_stream, if_pos (by decide), if_pos rfl,
      show ([some (), none, some ()] : List (Option Unit)) =
        ([()] : List Unit).map some ++ none :: [some ()] from rfl,
      processFrames_maps (fun _ : Unit => []) 3 [some ()] [()] 0]
    norm_num [event_generator, List.enumFrom]
  · rfl

/-- C8 (amended): a mid-stream decode failure stops the sequence
immediately — nothing after the failed read is processed — but it is
signalled as normal completion: the transport emits the data events and the
done sentinel, never an error event, so decode failure is indistinguishable
from ordinary end-of-stream. -/
theorem stream_decode_failure_silent {Frame : Type} (file_ext : String)
    (image_detections : List Detection) (frame_count : Int) (pre : List Frame)
    (post : List (Option Frame)) (model : Frame → List Detection)
    (hext : file_ext ∈ video_extensions) :
    detect_video_stream file_ext image_detections true frame_count
        (pre.map some ++ none :: post) model =
      detect_video_stream file_ext image_detections true frame_count
        (pre.map some ++ [none]) model ∧
    event_generator (detect_video_stream file_ext image_detections true frame_count
        (pre.map some ++ none :: post) model) =
      (detect_video_stream file_ext image_detections true frame_count
        (pre.map some ++ [none]) model).map SSEEvent.data ++ [SSEEvent.done] ∧
    (∀ msg : String, SSEEvent.error msg ∉
      event_generator (detect_video_stream file_ext image_detections true frame_count
        (pre.map some ++ none :: post) model)) := by
  have htrunc : detect_video_stream file_ext image_detections true frame_count
      (pre.map some ++ none :: post) model =
      detect_video_stream file_ext image_detections true frame_count
        (pre.map some ++ [none]) model := by
    rw [detect_video_stream, if_pos hext, if_pos rfl,
      detect_video_stream, if_pos hext, if_pos rfl,
      processFrames_maps model frame_count post pre 0,
      processFrames_maps model frame_count [] pre 0]
  refine ⟨htrunc, by rw [htrunc]; rfl, ?_⟩
  intro msg hmem
  rw [event_generator] at hmem
  rcases List.mem_append.mp hmem with hdata | hdone
  · obtain ⟨r, _, heq⟩ := List.mem_map.mp hdata
    exact absurd heq (by intro h; cases h)
  · rw [List.mem_singleton] at hdone
    cases hdone

/-- Witness for the amended C8 at a concrete failing video. -/
theorem stream_decode_failure_silent_witness :
    detect_video_stream ".avi" ([] : List Detection) true 2
        (([()] : List Unit).map some ++ none :: [some ()]) (fun _ => []) =
      detect_video_stream ".avi" ([] : List Detection) true 2
        (([()] : List Unit).map some ++ [none]) (fun _ => []) ∧
    event_generator (detect_video_stream ".avi" ([] : List Detection) true 2
        (([()] : List Unit).map some ++ none :: [some ()]) (fun _ => [])) =
      (detect_video_stream ".avi" ([] : List Detection) true 2
        (([()] : List Unit).map some ++ [none]) (fun _ => [])).map SSEEvent.data ++
        [SSEEvent.done] ∧
    (∀ msg : String, SSEEvent.error msg ∉
      event_generator (detect_video_stream ".avi" ([] : List Detection) true 2
        (([()] : List Unit).map some ++ none :: [some ()]) (fun _ => []))) :=
  stream_decode_failure_silent ".avi" [] 2 [()] [some ()] (fun _ => []) (by decide)

/-- One observable effect of the `detect_video_stream` generator body in
the video branch: a yield, or the `cap.release()` call. -/
inductive StreamEffect where
  | yieldResult (r : FrameResult)
  | release
deriving DecidableEq, Repr

/-- The effect trace of the video branch when the generator is driven to
exhaustion: every yield in order, then the `cap.release()` that stands
after the frame loop (it is not inside a try/finally). -/
def videoStreamEffects {Frame : Type} (frame_count : Int)
    (reads : List (Option Frame)) (model : Frame → List Detection) :
    List StreamEffect :=
  (processFrames model frame_count 0 reads).map StreamEffect.yieldResult ++
    [StreamEffect.release]

/-- The effects that actually execute when the consumer stops after `k`
pulls: the generator body runs only up to its k-th yield, and closing the
generator raises GeneratorExit at that yield; with no try/finally in
`detect_video_stream`, nothing after that point runs. -/
def effectsAfterEarlyClose {Frame : Type} (frame_count : Int)
    (reads : List (Option Frame)) (model : Frame → List Detection) (k : Nat) :
    List StreamEffect :=
  (videoStreamEffects frame_count reads model).take k

/-- Counterexample to C9 as stated: cancelling after the first of two
frames executes exactly one yield and never the release — the capture
session is not released on this exit path. -/
theorem stream_release_skipped_on_cancel_cex :
    effectsAfterEarlyClose 2 [some (), some (), none] (fun _ : Unit => []) 1 =
      [StreamEffect.yieldResult
        { frame := 1
          total_frames := 2
          detections := []
          has_fire := false
          progress := some 50 }] ∧
    StreamEffect.release ∉
      effectsAfterEarlyClose 2 [some (), some (), none] (fun _ : Unit => []) 1 := by
  have h1 : effectsAfterEarlyClose 2 [some (), some (), none] (fun _ : Unit => []) 1 =
      [StreamEffect.yieldResult
        { frame := 1
          total_frames := 2
          detections := []
          has_fire := false
          progress := some 50 }] := by
    show ((processFrames (fun _ : Unit => []) 2 0
        (([(), ()] : List Unit).map some ++ none :: [])).map
        StreamEffect.yieldResult ++ [StreamEffect.release]).take 1 = _
    rw [processFrames_maps (fun _ : Unit => []) 2 [] [(), ()] 0]
    norm_num [List.enumFrom]
  refine ⟨h1, ?_⟩
  rw [h1]
  intro hmem
  rw [List.mem_singleton] at hmem
  cases hmem

/-- C9 (amended): the capture session is released when the frame loop runs
to completion (including the decode-failure break), because
`cap.release()` follows the loop; but on consumer-initiated early
cancellation — stopping before the yield sequence is exhausted — the
release never executes, since it is not in a finally block. -/
theorem stream_release_paths {Frame : Type} (frame_count : Int)
    (reads : List (Option Frame)) (model : Frame → List Detection) :
    (videoStreamEffects frame_count reads model).getLast? =
      some StreamEffect.release ∧
    (∀ k ≤ (processFrames model frame_count 0 reads).length,
      StreamEffect.release ∉ effectsAfterEarlyClose frame_count reads model k) := by
  constructor
  · rw [videoStreamEffects, List.getLast?_concat]
  · intro k hk hmem
    rw [effectsAfterEarlyClose, videoStreamEffects,
      List.take_append_of_le_length (by simpa using hk)] at hmem
    have := (List.take_sublist k _).mem hmem
    obtain ⟨r, _, heq⟩ := List.mem_map.mp this
    cases heq

end Wildfire
